import Mathlib

/-!
Verification development for the Smart Document Reader (src/script.js).

The JavaScript source is shallowly embedded: strings are `List Char`,
the sentence-splitting regex is a left-to-right scan machine, the
markdown-to-HTML formatting pipeline of `processDocument` is modelled
stage by stage, the accessibility analyzer is a pure function of
`(text, sentences)`, and the playback controller is a transition system
over an explicit state record driven by user and speech-engine events.
-/

namespace SDR

/-! ## Basic character classes (JS `trim` whitespace and terminal punctuation) -/

/-- Whitespace as used by JS `String.prototype.trim` (restricted to the ASCII
whitespace characters that can occur in the embedded inputs). -/
def isWsChar (c : Char) : Bool :=
  c = ' ' || c = '\n' || c = '\t' || c = '\r'

/-- Terminal sentence punctuation per the regex `[\.!?]` in `script.js`. -/
def isTerm (c : Char) : Bool :=
  c = '.' || c = '!' || c = '?'

/-- Remove every whitespace character (content "modulo whitespace normalization"). -/
def stripWs (l : List Char) : List Char :=
  l.filter (fun c => !isWsChar c)

/-- JS `trim`: drop whitespace from both ends. -/
def trimChars (l : List Char) : List Char :=
  ((l.dropWhile isWsChar).reverse.dropWhile isWsChar).reverse

/-- `some c` test on the last element: does the list end with terminal punctuation? -/
def endsTerm (l : List Char) : Bool :=
  match l.getLast? with
  | some c => isTerm c
  | none => false

/-! ## The sentence regex `/[^\.!?]+[\.!?]+/g` of `extractSentencesFromElement`

A JS global match of this regex is equivalent to a single left-to-right scan:
skip any leading terminal characters, accumulate a maximal run of
non-terminal characters (the body), then a maximal run of terminal
characters (the punctuation); a body that reaches the end of the input
without any terminal punctuation is not a match and is dropped. -/

/-- Scanner mode: skipping unmatched leading terminals, accumulating a body,
or accumulating the punctuation run that closes a match. -/
inductive ScanMode where
  | skipLead : ScanMode
  | body : List Char → ScanMode
  | punc : List Char → List Char → ScanMode

/-- One pass of the global regex match, returning the list of matches. -/
def scanStep : ScanMode → List Char → List (List Char)
  | m, [] =>
    match m with
    | .skipLead => []
    | .body _ => []
    | .punc b p => [b ++ p]
  | m, c :: rest =>
    match m with
    | .skipLead =>
      if isTerm c then scanStep .skipLead rest else scanStep (.body [c]) rest
    | .body acc =>
      if isTerm c then scanStep (.punc acc [c]) rest
      else scanStep (.body (acc ++ [c])) rest
    | .punc b p =>
      if isTerm c then scanStep (.punc b (p ++ [c])) rest
      else (b ++ p) :: scanStep (.body [c]) rest

/-- `text.match(/[^\.!?]+[\.!?]+/g)`, with `[]` standing for JS `null`. -/
def regexMatches (l : List Char) : List (List Char) :=
  scanStep .skipLead l

/-- The per-text-node body of `extractSentencesFromElement`:
trim the node text, skip it when empty, otherwise regex-match with the
whole trimmed text as fallback, then trim each piece and drop empties. -/
def sentencesOfNode (node : List Char) : List (List Char) :=
  let text := trimChars node
  if text.isEmpty then []
  else
    let ms := regexMatches text
    let base := if ms.isEmpty then [text] else ms
    (base.map trimChars).filter (fun s => !s.isEmpty)

/-- `extractSentencesFromElement` over the document-order list of text nodes. -/
def extractSentencesFromNodes (nodes : List (List Char)) : List (List Char) :=
  (nodes.map sentencesOfNode).flatten

/-! ## The `processDocument` formatting pipeline

`processDocument` rewrites markdown-ish structure to HTML
(`# heading` lines, `**bold**`, `*italic*`, blank-line paragraph splits,
`\n` to `<br>`), parses the HTML, and walks the resulting text nodes.
Tags only ever act as text-node separators for the sentence extraction,
so the `innerHTML` parse is modelled by splitting the generated HTML
string at `<...>` tag spans. -/

/-- JS `split(sep)` for a one-character separator (keeps empty pieces,
`"".split(sep) = [""]`). -/
def splitChar (sep : Char) : List Char → List (List Char)
  | [] => [[]]
  | c :: rest =>
    if c = sep then [] :: splitChar sep rest
    else
      match splitChar sep rest with
      | [] => [[c]]
      | w :: ws => (c :: w) :: ws

/-- JS `split("\n\n")`: split at non-overlapping, leftmost occurrences of
two consecutive newlines. -/
def splitOn2NL : List Char → List (List Char)
  | [] => [[]]
  | '\n' :: '\n' :: rest => [] :: splitOn2NL rest
  | c :: rest =>
    match splitOn2NL rest with
    | [] => [[c]]
    | w :: ws => (c :: w) :: ws

/-- Digit character for a heading level 1–6. -/
def headingLevelChar : Nat → Char
  | 1 => '1'
  | 2 => '2'
  | 3 => '3'
  | 4 => '4'
  | 5 => '5'
  | 6 => '6'
  | _ => '0'

/-- Per-line model of `.replace(/^(#{1,6})\s+(.+)$/gm, ...)`:
a line of 1–6 leading `#`, at least one whitespace, and a non-empty title
becomes `<hk>title</hk>`; all other lines are unchanged. -/
def headingReplace (line : List Char) : List Char :=
  let hashes := line.takeWhile (fun c => c = '#')
  let rest := line.dropWhile (fun c => c = '#')
  let title := rest.dropWhile isWsChar
  if 1 ≤ hashes.length ∧ hashes.length ≤ 6 ∧ ¬(rest.takeWhile isWsChar).isEmpty ∧ ¬title.isEmpty then
    "<h".data ++ [headingLevelChar hashes.length] ++ ">".data ++ title
      ++ "</h".data ++ [headingLevelChar hashes.length] ++ ">".data
  else line

/-- Leftmost occurrence of `**`: returns the text before it and the text after. -/
def starSplit : List Char → Option (List Char × List Char)
  | '*' :: '*' :: rest => some ([], rest)
  | c :: rest =>
    match starSplit rest with
    | some (b, a) => some (c :: b, a)
    | none => none
  | [] => none

/-- Lazy `(.+?)\*\*`: at least one content character, then the earliest `**`. -/
def findBoldClose : List Char → Option (List Char × List Char)
  | [] => none
  | c :: rest =>
    match starSplit rest with
    | some (b, a) => some (c :: b, a)
    | none => none

/-- Fuelled scan for `.replace(/\*\*(.+?)\*\*/g, '<strong>$1</strong>')`;
the fuel only drives the recursion and `length` fuel is always enough. -/
def boldReplaceF : Nat → List Char → List Char
  | 0, l => l
  | Nat.succ fuel, l =>
    match l with
    | '*' :: '*' :: rest =>
      (match findBoldClose rest with
       | some (content, after) =>
         "<strong>".data ++ content ++ "</strong>".data ++ boldReplaceF fuel after
       | none => '*' :: '*' :: boldReplaceF fuel rest)
    | c :: rest => c :: boldReplaceF fuel rest
    | [] => []

/-- `.replace(/\*\*(.+?)\*\*/g, '<strong>$1</strong>')` on one line. -/
def boldReplace (l : List Char) : List Char :=
  boldReplaceF l.length l

/-- Leftmost occurrence of a single `*`. -/
def singleStarSplit : List Char → Option (List Char × List Char)
  | '*' :: rest => some ([], rest)
  | c :: rest =>
    match singleStarSplit rest with
    | some (b, a) => some (c :: b, a)
    | none => none
  | [] => none

/-- Lazy `(.+?)\*`: at least one content character, then the earliest `*`. -/
def findItalicClose : List Char → Option (List Char × List Char)
  | [] => none
  | c :: rest =>
    match singleStarSplit rest with
    | some (b, a) => some (c :: b, a)
    | none => none

/-- Fuelled scan for `.replace(/\*(.+?)\*/g, '<em>$1</em>')`. -/
def italicReplaceF : Nat → List Char → List Char
  | 0, l => l
  | Nat.succ fuel, l =>
    match l with
    | '*' :: rest =>
      (match findItalicClose rest with
       | some (content, after) =>
         "<em>".data ++ content ++ "</em>".data ++ italicReplaceF fuel after
       | none => '*' :: italicReplaceF fuel rest)
    | c :: rest => c :: italicReplaceF fuel rest
    | [] => []

/-- `.replace(/\*(.+?)\*/g, '<em>$1</em>')` on one line. -/
def italicReplace (l : List Char) : List Char :=
  italicReplaceF l.length l

/-- The three regex replaces of `processDocument` in source order
(heading, bold, italic). None of the three can match across a newline
(`.` excludes `\n` and headings are line-anchored), so applying them line
by line is equivalent to applying them to the whole text. -/
def lineTransform (line : List Char) : List Char :=
  italicReplace (boldReplace (headingReplace line))

/-- The replaced text before the paragraph split. -/
def stageReplace (text : List Char) : List Char :=
  List.intercalate ['\n'] ((splitChar '\n' text).map lineTransform)

/-- `.split('\n\n').map(p => p.trim()).filter(p => p.length > 0)`. -/
def paragraphBlocks (text : List Char) : List (List Char) :=
  ((splitOn2NL text).map trimChars).filter (fun p => !p.isEmpty)

/-- `paragraph.replace(/\n/g, '<br>')`. -/
def brReplace (b : List Char) : List Char :=
  (b.map (fun c => if c = '\n' then "<br>".data else [c])).flatten

/-- Wrap a non-heading block in `<p>...</p>` with `<br>` line breaks;
blocks that already start with `<h` are kept as they are. -/
def blockToHtml (b : List Char) : List Char :=
  if "<h".data.isPrefixOf b then b
  else "<p>".data ++ brReplace b ++ "</p>".data

/-- The final formatted HTML string assigned to `innerHTML`. -/
def formattedHtml (text : List Char) : List Char :=
  List.intercalate ['\n'] ((paragraphBlocks (stageReplace text)).map blockToHtml)

/-- Model of the DOM text-node walk: the non-empty maximal character runs
lying between `<...>` tag spans, in document order. -/
def splitNodesGo : Bool → List Char → List Char → List (List Char)
  | inTag, acc, [] =>
    if inTag then [] else if acc.isEmpty then [] else [acc]
  | true, acc, c :: rest =>
    if c = '>' then splitNodesGo false [] rest else splitNodesGo true acc rest
  | false, acc, c :: rest =>
    if c = '<' then (if acc.isEmpty then [] else [acc]) ++ splitNodesGo true [] rest
    else splitNodesGo false (acc ++ [c]) rest

/-- Text nodes of an HTML string. -/
def splitNodes (l : List Char) : List (List Char) :=
  splitNodesGo false [] l

/-- Document-order text nodes produced by `processDocument` for a raw text. -/
def textNodes (text : List Char) : List (List Char) :=
  splitNodes (formattedHtml text)

/-- The whole segmentation pipeline: raw text to the sentence list
(`processDocument` followed by `extractSentencesFromElement`). -/
def segmentText (text : List Char) : List (List Char) :=
  extractSentencesFromNodes (textNodes text)

/-! ## The accessibility analyzer (`analyzeAccessibility`) -/

/-- Issue severity. -/
inductive Severity where
  | low : Severity
  | medium : Severity
  | high : Severity
deriving DecidableEq

/-- The three issue types the analyzer can emit. -/
inductive IssueType where
  | sentenceComplexity : IssueType
  | documentStructure : IssueType
  | textDensity : IssueType
deriving DecidableEq

/-- An accessibility issue (type and severity; the description and impact
strings are determined by the type and do not affect score or risk). -/
structure AIssue where
  itype : IssueType
  severity : Severity
deriving DecidableEq

/-- `s.split(' ').length`: word count including empty pieces between
consecutive spaces, as in the source. -/
def wordCount (s : List Char) : Nat :=
  (splitChar ' ' s).length

/-- `sentences.reduce((sum, s) => sum + s.split(' ').length, 0)`. -/
def totalWords (ss : List (List Char)) : Nat :=
  (ss.map wordCount).sum

/-- `/^(#|Chapter|Section|Part)/m.test(text)`. -/
def hasHeadings (text : List Char) : Bool :=
  (splitChar '\n' text).any (fun line =>
    "#".data.isPrefixOf line || "Chapter".data.isPrefixOf line
      || "Section".data.isPrefixOf line || "Part".data.isPrefixOf line)

/-- `text.split('\n\n').filter(p => p.trim().length > 0)`. -/
def densityParagraphs (text : List Char) : List (List Char) :=
  (splitOn2NL text).filter (fun p => !(trimChars p).isEmpty)

/-- `analyzeAccessibility(text)` with the `this.sentences` field passed
explicitly. The float comparisons `sum/len > 20` and `len/count > 500`
are modelled by the equivalent integer comparisons; a zero denominator
gives JS `NaN`, for which both comparisons are false, matching the
guarded conjunctions here. -/
def analyzeAccessibility (text : List Char) (sentences : List (List Char)) : List AIssue :=
  (if 20 * sentences.length < totalWords sentences then
    [⟨IssueType.sentenceComplexity, Severity.high⟩] else [])
  ++ (if hasHeadings text = false ∧ sentences.length > 10 then
    [⟨IssueType.documentStructure, Severity.medium⟩] else [])
  ++ (if (densityParagraphs text).length ≠ 0
        ∧ 500 * (densityParagraphs text).length < text.length then
    [⟨IssueType.textDensity, Severity.medium⟩] else [])

/-- Penalty per severity in `displayAccessibilityAnalysis`. -/
def penalty : Severity → Nat
  | .high => 15
  | .medium => 8
  | .low => 3

/-- Total penalty subtracted from the initial score of 100. -/
def penaltyTotal (issues : List AIssue) : Nat :=
  (issues.map (fun i => penalty i.severity)).sum

/-- `let score = 100; issues.forEach(issue => score -= ...)`. -/
def computeScore (issues : List AIssue) : Int :=
  100 - penaltyTotal issues

/-- Risk levels. -/
inductive Risk where
  | low : Risk
  | medium : Risk
  | high : Risk
deriving DecidableEq

/-- `if (score < 70) 'High Risk' else if (score < 85) 'Medium Risk' else 'Low Risk'`. -/
def riskOf (score : Int) : Risk :=
  if score < 70 then Risk.high else if score < 85 then Risk.medium else Risk.low

/-! ## Voice selection (`readCurrentSentence`, lines 392–403) -/

/-- A speech-synthesis voice as exposed by the engine. -/
structure Voice where
  name : List Char
  lang : List Char
  localService : Bool
deriving DecidableEq

/-- Contiguous-substring test, `String.prototype.includes`. -/
def containsSeq (pat : List Char) : List Char → Bool
  | [] => pat.isEmpty
  | c :: rest => pat.isPrefixOf (c :: rest) || containsSeq pat rest

/-- `voice.name.includes('Natural') || ... || voice.name.includes('Neural')`. -/
def nameHasKeyword (v : Voice) : Bool :=
  containsSeq "Natural".data v.name || containsSeq "Enhanced".data v.name
    || containsSeq "Premium".data v.name || containsSeq "Neural".data v.name

/-- `voice.lang.startsWith('en') && voice.localService`. -/
def englishLocal (v : Voice) : Bool :=
  "en".data.isPrefixOf v.lang && v.localService

/-- `voice.lang.startsWith('en')`. -/
def english (v : Voice) : Bool :=
  "en".data.isPrefixOf v.lang

/-- The predicate of the FIRST `voices.find` in the source: keyword names
and local English voices compete in the same single pass. -/
def firstPassPred (v : Voice) : Bool :=
  nameHasKeyword v || englishLocal v

/-- The voice choice of `readCurrentSentence`:
`voices.find(keyword || (en && local)) || voices.find(en) || voices[0]`. -/
def selectVoice (vs : List Voice) : Option Voice :=
  match vs.find? firstPassPred with
  | some v => some v
  | none =>
    match vs.find? english with
    | some v => some v
    | none => vs.head?

/-- Modelled from the spec: the four-tier ranking the spec describes
(keyword names strictly before local English voices), for comparison
with the code's `selectVoice`. -/
def fourTierSelect (vs : List Voice) : Option Voice :=
  match vs.find? nameHasKeyword with
  | some v => some v
  | none =>
    match vs.find? englishLocal with
    | some v => some v
    | none =>
      match vs.find? english with
      | some v => some v
      | none => vs.head?

/-! ## The playback controller

State of `SmartDocumentReader` relevant to playback: `currentSentence`,
`isPlaying`, the speed slider value, plus two environment components:
`inflight` is the list of sentence indices of utterances handed to the
speech engine whose completion/error events have not yet been delivered,
and `timer` counts pending `setTimeout(readCurrentSentence, 200)` calls.

The `stale` flag chooses the engine model for `speechSynth.cancel()`:
`false` means cancellation also suppresses the cancelled utterance's
events (they are removed from `inflight`), `true` means cancelled
utterances may still deliver a late completion or error event, as real
engines do. -/

/-- An issued speech utterance with the fields the source configures. -/
structure Utt where
  text : List Char
  rate : ℚ
  pitch : ℚ
  volume : ℚ
deriving DecidableEq

/-- Playback-relevant state of the reader object plus engine bookkeeping. -/
structure PState where
  cur : Nat
  playing : Bool
  speed : ℚ
  inflight : List Nat
  timer : Nat
deriving DecidableEq

/-- Effect of `speechSynth.cancel()` on the deliverable events. -/
def cancelSpeech (stale : Bool) (fl : List Nat) : List Nat :=
  if stale then fl else []

/-- `pauseReading`: clear `isPlaying` and cancel any in-flight speech. -/
def pauseReading (stale : Bool) (s : PState) : PState :=
  { s with playing := false, inflight := cancelSpeech stale s.inflight }

/-- The utterance created by `readCurrentSentence`: the sentence at the
current index, rate read from the speed slider at creation time,
pitch 1.1 and volume 1. -/
def mkUtterance (sentences : List (List Char)) (s : PState) : Utt :=
  { text := sentences.getD s.cur []
    rate := s.speed
    pitch := (11 : ℚ) / 10
    volume := 1 }

/-- `readCurrentSentence`: pause when not playing or past the end,
otherwise speak the current sentence. -/
def readCurrentSentence (stale : Bool) (sentences : List (List Char)) (s : PState) :
    PState × List Utt :=
  if s.playing = false ∨ sentences.length ≤ s.cur then (pauseReading stale s, [])
  else ({ s with inflight := s.inflight ++ [s.cur] }, [mkUtterance sentences s])

/-- `startReading`: with no document only announce; otherwise set
`isPlaying` and call `readCurrentSentence` (the current index is never
reset here). -/
def startReading (stale : Bool) (sentences : List (List Char)) (s : PState) :
    PState × List Utt :=
  if sentences.length = 0 then (s, [])
  else readCurrentSentence stale sentences { s with playing := true }

/-- Events driving the controller: the play/pause button (or Ctrl+Space),
speech-engine completion and error callbacks tagged with the sentence
index of the utterance they belong to, a pending `setTimeout` firing,
the two seek shortcuts, a speed-slider input, and a document reload. -/
inductive Ev where
  | togglePlay : Ev
  | endedEv : Nat → Ev
  | errorEv : Nat → Ev
  | timerFire : Ev
  | arrowRight : Ev
  | arrowLeft : Ev
  | speedChange : ℚ → Ev
  | resetDoc : Ev

/-- One atomic handler run of the source, returning the new state and the
utterances issued during the handler. The completion handler increments
`currentSentence` without comparing the event's utterance index with the
current index. -/
def stepF (stale : Bool) (sentences : List (List Char)) : Ev → PState → PState × List Utt
  | .togglePlay, s =>
    if s.playing then (pauseReading stale s, []) else startReading stale sentences s
  | .endedEv i, s =>
    if i ∈ s.inflight then
      let s1 : PState := { s with inflight := s.inflight.erase i, cur := s.cur + 1 }
      if s1.cur < sentences.length ∧ s1.playing then ({ s1 with timer := s1.timer + 1 }, [])
      else (pauseReading stale s1, [])
    else (s, [])
  | .errorEv i, s =>
    if i ∈ s.inflight then
      (pauseReading stale { s with inflight := s.inflight.erase i }, [])
    else (s, [])
  | .timerFire, s =>
    if s.timer = 0 then (s, [])
    else readCurrentSentence stale sentences { s with timer := s.timer - 1 }
  | .arrowRight, s =>
    if s.cur < sentences.length - 1 then
      let s1 : PState := { s with cur := s.cur + 1 }
      if s1.playing then
        ({ s1 with inflight := cancelSpeech stale s1.inflight, timer := s1.timer + 1 }, [])
      else (s1, [])
    else (s, [])
  | .arrowLeft, s =>
    if 0 < s.cur then
      let s1 : PState := { s with cur := s.cur - 1 }
      if s1.playing then
        ({ s1 with inflight := cancelSpeech stale s1.inflight, timer := s1.timer + 1 }, [])
      else (s1, [])
    else (s, [])
  | .speedChange v, s =>
    let s1 : PState := { s with speed := v }
    if s1.playing then
      ({ s1 with inflight := cancelSpeech stale s1.inflight, timer := s1.timer + 1 }, [])
    else (s1, [])
  | .resetDoc, s => (pauseReading stale { s with cur := 0 }, [])

/-- State right after `resetPlayback` for a freshly loaded document. -/
def initPState (q : ℚ) : PState :=
  { cur := 0, playing := false, speed := q, inflight := [], timer := 0 }

/-- Reachable controller states for a fixed document. -/
inductive Reach (stale : Bool) (sentences : List (List Char)) : PState → Prop where
  | init : ∀ q : ℚ, Reach stale sentences (initPState q)
  | step : ∀ (s : PState) (e : Ev), Reach stale sentences s →
      Reach stale sentences (stepF stale sentences e s).1

/-- Run a concrete event list from the initial state. -/
def runEvents (stale : Bool) (sentences : List (List Char)) (q : ℚ) (evs : List Ev) : PState :=
  evs.foldl (fun s e => (stepF stale sentences e s).1) (initPState q)

/-! ## Settings persistence (`loadSettings` / `saveSettings`) -/

/-- The persisted record `{ accessibilityMode, speed }`; the slider value
is a string and JSON round-trips both fields losslessly, so the
stringify/parse pair is modelled as the identity on this record. -/
structure StoredSettings where
  accessibilityMode : Bool
  speed : String
deriving DecidableEq

/-- The application state the settings touch: the `accessibilityMode`
flag and the speed slider value. -/
structure UIState where
  accessibilityMode : Bool
  speedSlider : String
deriving DecidableEq

/-- State at the point `loadSettings` runs during construction: the
constructor sets `accessibilityMode = true` and `setupAccessibility` has
already applied accessibility mode; the slider holds its markup default. -/
def initialUI : UIState :=
  { accessibilityMode := true, speedSlider := "1" }

/-- `toggleAccessibilityMode` (state part): negate the flag. -/
def toggleAccessibilityMode (st : UIState) : UIState :=
  { st with accessibilityMode := !st.accessibilityMode }

/-- `saveSettings`: persist the current flag and slider value. -/
def saveSettings (st : UIState) : StoredSettings :=
  { accessibilityMode := st.accessibilityMode, speed := st.speedSlider }

/-- `loadSettings`: with no stored record do nothing; otherwise TOGGLE the
mode when the stored flag is truthy, and overwrite the slider when the
stored speed is truthy (a non-empty string). -/
def loadSettings (stored : Option StoredSettings) (st : UIState) : UIState :=
  match stored with
  | none => st
  | some p =>
    let st1 := if p.accessibilityMode then toggleAccessibilityMode st else st
    if p.speed ≠ "" then { st1 with speedSlider := p.speed } else st1

/-! ## Analyzer call on the reader object (for determinism) -/

/-- The fields of the reader object that `analyzeAccessibility` reads and
writes: the segmented sentences and the issue list it overwrites. -/
structure ReaderState where
  sentences : List (List Char)
  accessibilityIssues : List AIssue
deriving DecidableEq

/-- `this.analyzeAccessibility(text)`: clears and recomputes
`this.accessibilityIssues` from the text and `this.sentences`. -/
def runAnalysis (text : List Char) (st : ReaderState) : ReaderState :=
  { st with accessibilityIssues := analyzeAccessibility text st.sentences }

/-- A text node is covered without loss by the sentence regex when its
trimmed text is empty, contains no terminal punctuation at all (the
whole-node fallback applies), or starts with a non-terminal character
and ends with terminal punctuation (the matches partition it). -/
def goodNode (node : List Char) : Bool :=
  let t := trimChars node
  t.isEmpty || t.all (fun c => !isTerm c) ||
    (match t with
     | [] => false
     | c :: rs => !isTerm c && endsTerm (c :: rs))

/-! ## Lemmas about whitespace stripping -/

lemma stripWs_append (a b : List Char) : stripWs (a ++ b) = stripWs a ++ stripWs b :=
  List.filter_append a b

lemma stripWs_dropWhile (l : List Char) : stripWs (l.dropWhile isWsChar) = stripWs l := by
  induction l with
  | nil => rfl
  | cons c rest ih =>
    by_cases h : isWsChar c
    · simpa [List.dropWhile_cons, h, stripWs, List.filter_cons] using ih
    · simp [List.dropWhile_cons, h]

lemma stripWs_reverse (l : List Char) : stripWs l.reverse = (stripWs l).reverse :=
  List.filter_reverse _ l

lemma stripWs_trim (l : List Char) : stripWs (trimChars l) = stripWs l := by
  unfold trimChars
  rw [stripWs_reverse, stripWs_dropWhile, stripWs_reverse, List.reverse_reverse,
    stripWs_dropWhile]

/-! ## Lemmas about the sentence-regex scanner -/

lemma endsTerm_cons (c : Char) (rs : List Char) :
    endsTerm (c :: rs) = if rs.isEmpty then isTerm c else endsTerm rs := by
  cases rs with
  | nil => simp [endsTerm]
  | cons r rs2 => simp [endsTerm, List.getLast?_cons_cons]

lemma scan_flatten (rest : List Char) :
    (∀ acc, endsTerm rest = true → (scanStep (.body acc) rest).flatten = acc ++ rest)
    ∧ (∀ b p, (rest.isEmpty || endsTerm rest) = true →
        (scanStep (.punc b p) rest).flatten = b ++ (p ++ rest)) := by
  induction rest with
  | nil =>
    constructor
    · intro acc h
      simp [endsTerm] at h
    · intro b p _
      simp [scanStep]
  | cons c rs ih =>
    constructor
    · intro acc h
      rw [endsTerm_cons] at h
      by_cases hc : isTerm c
      · have hrs : (rs.isEmpty || endsTerm rs) = true := by
          by_cases he : rs.isEmpty <;> simp_all
        have := ih.2 acc [c] hrs
        simp [scanStep, hc, this]
      · have hrs : rs.isEmpty = false := by
          by_cases he : rs.isEmpty <;> simp_all
        have hend : endsTerm rs = true := by simp_all
        have := ih.1 (acc ++ [c]) hend
        simp [scanStep, hc, this]
    · intro b p h
      have h2 : endsTerm (c :: rs) = true := by simpa using h
      rw [endsTerm_cons] at h2
      by_cases hc : isTerm c
      · have hrs : (rs.isEmpty || endsTerm rs) = true := by
          by_cases he : rs.isEmpty <;> simp_all
        have := ih.2 b (p ++ [c]) hrs
        simp [scanStep, hc, this]
      · have hrs : rs.isEmpty = false := by
          by_cases he : rs.isEmpty <;> simp_all
        have hend : endsTerm rs = true := by simp_all
        have := ih.1 [c] hend
        simp [scanStep, hc, this]

lemma regexMatches_flatten (c : Char) (rs : List Char) (hc : isTerm c = false)
    (hend : endsTerm (c :: rs) = true) :
    (regexMatches (c :: rs)).flatten = c :: rs := by
  have hrs : rs.isEmpty = false := by
    rw [endsTerm_cons] at hend
    by_cases he : rs.isEmpty <;> simp_all
  have hend2 : endsTerm rs = true := by
    rw [endsTerm_cons, hrs] at hend
    simpa using hend
  have := (scan_flatten rs).1 [c] hend2
  simp [regexMatches, scanStep, hc, this]

lemma scanStep_body_noTerm (rest : List Char) :
    rest.all (fun c => !isTerm c) = true → ∀ acc, scanStep (.body acc) rest = [] := by
  induction rest with
  | nil =>
    intro _ acc
    rfl
  | cons c rs ih =>
    intro h acc
    simp only [List.all_cons, Bool.and_eq_true, Bool.not_eq_true'] at h
    simp [scanStep, h.1]
    exact ih h.2 (acc ++ [c])

lemma regexMatches_noTerm (t : List Char) (h : t.all (fun c => !isTerm c) = true) :
    regexMatches t = [] := by
  cases t with
  | nil => rfl
  | cons c rs =>
    simp only [List.all_cons, Bool.and_eq_true, Bool.not_eq_true'] at h
    simp [regexMatches, scanStep, h.1]
    exact scanStep_body_noTerm rs h.2 [c]

/-! ## Coverage of a single text node and of a node list -/

lemma stripWs_trimFilter (ms : List (List Char)) :
    stripWs ((ms.map trimChars).filter (fun s => !s.isEmpty)).flatten
      = stripWs ms.flatten := by
  induction ms with
  | nil => rfl
  | cons m rest ih =>
    by_cases h : (trimChars m).isEmpty
    · have hm : stripWs m = [] := by
        rw [List.isEmpty_iff] at h
        have h2 := stripWs_trim m
        rw [h] at h2
        exact h2.symm
      simp [List.filter_cons, h, stripWs_append, ih, hm]
    · simp [List.filter_cons, h, stripWs_append, ih, stripWs_trim]

lemma sentencesOfNode_coverage (node : List Char) (h : goodNode node = true) :
    stripWs (sentencesOfNode node).flatten = stripWs node := by
  unfold sentencesOfNode
  unfold goodNode at h
  cases ht : trimChars node with
  | nil =>
    have h2 := stripWs_trim node
    rw [ht] at h2
    simp [ht]
    exact h2
  | cons c rs =>
    rw [ht] at h
    simp only [List.isEmpty_cons, Bool.false_or, Bool.or_eq_true,
      Bool.and_eq_true, Bool.not_eq_true'] at h
    have hbase : (if (regexMatches (c :: rs)).isEmpty then [c :: rs]
        else regexMatches (c :: rs)).flatten = c :: rs := by
      rcases h with hall | ⟨hc, hend⟩
      · rw [regexMatches_noTerm (c :: rs) hall]
        simp
      · by_cases hms : (regexMatches (c :: rs)).isEmpty
        · simp [hms]
        · simp [hms, regexMatches_flatten c rs hc hend]
    have h2 := stripWs_trim node
    rw [ht] at h2
    simp only [List.isEmpty_cons, Bool.false_eq_true, if_false]
    rw [stripWs_trimFilter, hbase]
    exact h2

lemma sentencesOfNode_nonempty (node : List Char) :
    ∀ s ∈ sentencesOfNode node, s ≠ [] := by
  intro s hs
  unfold sentencesOfNode at hs
  by_cases ht : (trimChars node).isEmpty
  · simp [ht] at hs
  · simp only [ht, if_neg, Bool.not_eq_true] at hs
    have := List.of_mem_filter hs
    simpa [List.isEmpty_iff] using this

lemma nodes_coverage : ∀ nodes : List (List Char),
    (∀ nd ∈ nodes, goodNode nd = true) →
    stripWs (extractSentencesFromNodes nodes).flatten = stripWs nodes.flatten := by
  intro nodes
  induction nodes with
  | nil => intro _; rfl
  | cons nd rest ih =>
    intro h
    have h1 := h nd (by simp)
    have h2 : ∀ x ∈ rest, goodNode x = true := fun x hx => h x (by simp [hx])
    simp only [extractSentencesFromNodes, List.map_cons, List.flatten_cons,
      List.flatten_append, stripWs_append]
    rw [sentencesOfNode_coverage nd h1]
    have h3 := ih h2
    simp only [extractSentencesFromNodes] at h3
    rw [h3]

/-! ## Claim theorems -/

/-- Claim C1 counterexample: `extractSentencesFromElement` does NOT cover
every non-whitespace character. For the single text node
`"Hello. World"` (one paragraph of that raw text) the regex matches only
`"Hello."` and, because a match exists, the whole-node fallback is not
taken, so `"World"` is silently dropped from the sentence list. -/
theorem claim_c1_counterexample :
    stripWs (extractSentencesFromNodes ["Hello. World".data]).flatten
      ≠ stripWs (["Hello. World".data] : List (List Char)).flatten := by
  decide

/-- Claim C1 (amended): total coverage holds for text nodes whose trimmed
text either contains no terminal punctuation at all (the whole node is
one sentence) or starts with a non-terminal character and ends with
terminal punctuation; for such nodes every non-whitespace character
appears in exactly one produced sentence (the concatenation of the
sentences equals the concatenation of the nodes modulo whitespace), and
no produced sentence is empty. A trailing fragment without terminal
punctuation after a match, or leading terminal punctuation before the
first match, is dropped (see the counterexample). -/
theorem claim_c1_amended_coverage (nodes : List (List Char))
    (h : ∀ nd ∈ nodes, goodNode nd = true) :
    stripWs (extractSentencesFromNodes nodes).flatten = stripWs nodes.flatten
    ∧ ∀ s ∈ extractSentencesFromNodes nodes, s ≠ [] := by
  constructor
  · exact nodes_coverage nodes h
  · intro s hs
    unfold extractSentencesFromNodes at hs
    rw [List.mem_flatten] at hs
    obtain ⟨l, hl, hsl⟩ := hs
    rw [List.mem_map] at hl
    obtain ⟨nd, _, hnd⟩ := hl
    exact sentencesOfNode_nonempty nd s (hnd ▸ hsl)

/-- Witness for the amended C1 at a concrete two-node document. -/
theorem claim_c1_amended_coverage_witness :
    stripWs (extractSentencesFromNodes ["Hi there. Bye!".data, "No dots here".data]).flatten
      = stripWs (["Hi there. Bye!".data, "No dots here".data] : List (List Char)).flatten
    ∧ ∀ s ∈ extractSentencesFromNodes ["Hi there. Bye!".data, "No dots here".data], s ≠ [] :=
  claim_c1_amended_coverage ["Hi there. Bye!".data, "No dots here".data] (by decide)

/-! ## C2: score, risk level and Scenario B -/

lemma penaltyTotal_analyze_le (text : List Char) (ss : List (List Char)) :
    penaltyTotal (analyzeAccessibility text ss) ≤ 31 := by
  unfold analyzeAccessibility
  split_ifs <;> decide

/-- Scenario B paragraph: twenty-five one-letter words ending in a period. -/
def scenarioPara : List Char :=
  List.intercalate [' '] (List.replicate 25 "a".data) ++ ['.']

/-- Scenario B raw text: fifteen such paragraphs separated by blank lines
(15 sentences, no heading markers, 25 words per sentence, short
paragraphs so the density signal stays quiet). -/
def scenarioText : List Char :=
  List.intercalate ['\n', '\n'] (List.replicate 15 scenarioPara)

/-- The sentences the pipeline produces for the Scenario B text. -/
def scenarioSentences : List (List Char) :=
  segmentText scenarioText

set_option maxRecDepth 10000 in
/-- Claim C2: for every analysis run the score is `100` minus the summed
penalties and the clamp at `0` never bites (so the score equals the
clamped value and is non-negative); the risk level follows the stated
thresholds; and the Scenario B document (15 sentences, no headings,
average 25 words per sentence) yields exactly the Complexity (high) and
Structure (medium) issues, score 77 and Medium risk. -/
theorem claim_c2_score_risk_scenario :
    (∀ (text : List Char) (ss : List (List Char)),
      computeScore (analyzeAccessibility text ss)
          = max 0 (100 - (penaltyTotal (analyzeAccessibility text ss) : Int))
        ∧ 0 ≤ computeScore (analyzeAccessibility text ss))
    ∧ (∀ sc : Int, (85 ≤ sc → riskOf sc = Risk.low)
        ∧ (70 ≤ sc → sc ≤ 84 → riskOf sc = Risk.medium)
        ∧ (sc < 70 → riskOf sc = Risk.high))
    ∧ (scenarioSentences.length = 15
        ∧ hasHeadings scenarioText = false
        ∧ totalWords scenarioSentences = 25 * 15
        ∧ analyzeAccessibility scenarioText scenarioSentences
            = [⟨IssueType.sentenceComplexity, Severity.high⟩,
               ⟨IssueType.documentStructure, Severity.medium⟩]
        ∧ computeScore (analyzeAccessibility scenarioText scenarioSentences) = 77
        ∧ riskOf (computeScore (analyzeAccessibility scenarioText scenarioSentences))
            = Risk.medium) := by
  refine ⟨fun text ss => ?_, fun sc => ?_, ?_⟩
  · have hb := penaltyTotal_analyze_le text ss
    unfold computeScore
    omega
  · refine ⟨fun h => ?_, fun h1 h2 => ?_, fun h => ?_⟩
    · unfold riskOf
      rw [if_neg (by omega), if_neg (by omega)]
    · unfold riskOf
      rw [if_neg (by omega), if_pos (by omega)]
    · unfold riskOf
      rw [if_pos h]
  · decide

/-- Witness for the risk-derivation hypotheses of C2 at concrete scores. -/
theorem claim_c2_score_risk_scenario_witness :
    riskOf 100 = Risk.low ∧ riskOf 77 = Risk.medium ∧ riskOf 69 = Risk.high :=
  ⟨(claim_c2_score_risk_scenario.2.1 100).1 (by decide),
   (claim_c2_score_risk_scenario.2.1 77).2.1 (by decide) (by decide),
   (claim_c2_score_risk_scenario.2.1 69).2.2 (by decide)⟩

/-! ## C3: voice selection -/

/-- A local English voice without any ranking keyword in its name. -/
def aliceVoice : Voice :=
  ⟨"Alice".data, "en-US".data, true⟩

/-- A non-English, non-local voice whose name contains the keyword
`Natural`. -/
def bobVoice : Voice :=
  ⟨"Bob Natural".data, "de-DE".data, false⟩

/-- Claim C3 counterexample: the code runs keyword names and local
English voices in one single `find` pass, so the earlier local English
voice `aliceVoice` beats the later keyword-named voice `bobVoice`,
while the four-tier ranking of the claim would pick `bobVoice`. -/
theorem claim_c3_counterexample :
    nameHasKeyword bobVoice = true
    ∧ nameHasKeyword aliceVoice = false
    ∧ englishLocal aliceVoice = true
    ∧ selectVoice [aliceVoice, bobVoice] = some aliceVoice
    ∧ fourTierSelect [aliceVoice, bobVoice] = some bobVoice
    ∧ selectVoice [aliceVoice, bobVoice] ≠ fourTierSelect [aliceVoice, bobVoice] := by
  decide

/-- Claim C3 (amended): selection is a three-pass ranking, first match
wins — (1) the first candidate whose name contains a keyword OR which is
a local English voice, (2) the first English candidate, (3) the first
candidate overall — and the result is `none` exactly when the candidate
list is empty; every selected voice is one of the candidates. -/
theorem claim_c3_amended (vs : List Voice) :
    ((selectVoice vs).isNone ↔ vs = [])
    ∧ (∀ v, selectVoice vs = some v → v ∈ vs)
    ∧ (∀ v, vs.find? firstPassPred = some v → selectVoice vs = some v)
    ∧ ((∀ u ∈ vs, firstPassPred u = false) →
        ∀ v, vs.find? english = some v → selectVoice vs = some v)
    ∧ ((∀ u ∈ vs, firstPassPred u = false ∧ english u = false) →
        selectVoice vs = vs.head?) := by
  refine ⟨⟨fun h => ?_, fun h => ?_⟩, fun v hv => ?_, fun v hv => ?_,
    fun hall v hv => ?_, fun hall => ?_⟩
  · unfold selectVoice at h
    cases h1 : vs.find? firstPassPred with
    | some w => rw [h1] at h; simp at h
    | none =>
      rw [h1] at h
      cases h2 : vs.find? english with
      | some w => rw [h2] at h; simp at h
      | none =>
        rw [h2] at h
        rw [← List.head?_eq_none_iff]
        simpa [Option.isNone_iff_eq_none] using h
  · subst h; rfl
  · unfold selectVoice at hv
    cases h1 : vs.find? firstPassPred with
    | some w =>
      rw [h1] at hv
      cases hv
      exact List.mem_of_find?_eq_some h1
    | none =>
      rw [h1] at hv
      cases h2 : vs.find? english with
      | some w =>
        rw [h2] at hv
        cases hv
        exact List.mem_of_find?_eq_some h2
      | none =>
        rw [h2] at hv
        cases vs with
        | nil => simp at hv
        | cons a l =>
          simp only [List.head?] at hv
          cases hv
          simp
  · unfold selectVoice
    rw [hv]
  · have h1 : vs.find? firstPassPred = none :=
      List.find?_eq_none.mpr (fun u hu => by simp [hall u hu])
    unfold selectVoice
    rw [h1, hv]
  · have h1 : vs.find? firstPassPred = none :=
      List.find?_eq_none.mpr (fun u hu => by simp [(hall u hu).1])
    have h2 : vs.find? english = none :=
      List.find?_eq_none.mpr (fun u hu => by simp [(hall u hu).2])
    unfold selectVoice
    rw [h1, h2]

/-- Witness for the amended C3 at the concrete candidate list. -/
theorem claim_c3_amended_witness :
    selectVoice [aliceVoice, bobVoice] = some aliceVoice :=
  (claim_c3_amended [aliceVoice, bobVoice]).2.2.1 aliceVoice (by decide)

/-! ## C6: settings round-trip -/

/-- Claim C6 (code bug evidence): `loadSettings` calls
`toggleAccessibilityMode()` when the STORED flag is truthy, but the
constructor has already put the app in accessibility mode, so startup
loading always yields the NEGATION of the saved flag; in particular a
saved `accessibilityMode = true` comes back as `false`. The README's
"Restores accessibility modes between sessions" and the spec's
round-trip property are violated. -/
theorem claim_c6_evidence :
    (∀ p : StoredSettings,
      (loadSettings (some p) initialUI).accessibilityMode = !p.accessibilityMode)
    ∧ (loadSettings (some (saveSettings ⟨true, "1.5"⟩)) initialUI).accessibilityMode = false
    ∧ (saveSettings (⟨true, "1.5"⟩ : UIState)).accessibilityMode = true := by
  refine ⟨fun p => ?_, by decide, by decide⟩
  cases hp : p.accessibilityMode <;>
    simp [loadSettings, initialUI, toggleAccessibilityMode, hp] <;>
    split_ifs <;> rfl

/-! ## C7: totality on the empty string -/

/-- Claim C7: on the empty string the pipeline produces no sentences and
the analyzer produces no issues, score 100 and Low risk; the zero
denominators of the two average computations are modelled by the guarded
comparisons, which are false exactly as the JS `NaN` comparisons are. -/
theorem claim_c7_empty_input :
    segmentText "".data = []
    ∧ analyzeAccessibility "".data (segmentText "".data) = []
    ∧ computeScore (analyzeAccessibility "".data (segmentText "".data)) = 100
    ∧ riskOf (computeScore (analyzeAccessibility "".data (segmentText "".data))) = Risk.low := by
  decide

/-! ## C9: report determinism -/

/-- Claim C9: the analyzer output depends only on the text argument and
the `sentences` field — two reader states with the same sentences yield
identical issue lists, scores and risk levels for the same text,
regardless of any previously stored issues (the issue list is
overwritten, not appended to). -/
theorem claim_c9_determinism (text : List Char) (st st2 : ReaderState)
    (h : st.sentences = st2.sentences) :
    (runAnalysis text st).accessibilityIssues = (runAnalysis text st2).accessibilityIssues
    ∧ computeScore (runAnalysis text st).accessibilityIssues
        = computeScore (runAnalysis text st2).accessibilityIssues
    ∧ riskOf (computeScore (runAnalysis text st).accessibilityIssues)
        = riskOf (computeScore (runAnalysis text st2).accessibilityIssues) := by
  unfold runAnalysis
  rw [h]
  exact ⟨rfl, rfl, rfl⟩

/-- Witness for C9: two states with the same sentences but different
stale issue lists give the same report. -/
theorem claim_c9_determinism_witness :
    (runAnalysis "Hi.".data ⟨["Hi.".data], [⟨IssueType.textDensity, Severity.low⟩]⟩).accessibilityIssues
      = (runAnalysis "Hi.".data ⟨["Hi.".data], []⟩).accessibilityIssues
    ∧ computeScore (runAnalysis "Hi.".data
          ⟨["Hi.".data], [⟨IssueType.textDensity, Severity.low⟩]⟩).accessibilityIssues
        = computeScore (runAnalysis "Hi.".data ⟨["Hi.".data], []⟩).accessibilityIssues
    ∧ riskOf (computeScore (runAnalysis "Hi.".data
          ⟨["Hi.".data], [⟨IssueType.textDensity, Severity.low⟩]⟩).accessibilityIssues)
        = riskOf (computeScore (runAnalysis "Hi.".data
          ⟨["Hi.".data], []⟩).accessibilityIssues) :=
  claim_c9_determinism "Hi.".data
    ⟨["Hi.".data], [⟨IssueType.textDensity, Severity.low⟩]⟩ ⟨["Hi.".data], []⟩ rfl

/-! ## Playback controller invariants -/

/-- The inductive invariant of the clean-cancellation model: the index
never exceeds the sentence count, a playing controller is strictly
inside the document, and a paused controller has no deliverable
events left. -/
def PInv (n : Nat) (s : PState) : Prop :=
  s.cur ≤ n ∧ (s.playing = true → s.cur < n) ∧ (s.playing = false → s.inflight = [])

lemma pinv_step (sentences : List (List Char)) (e : Ev) (s : PState)
    (h : PInv sentences.length s) : PInv sentences.length (stepF false sentences e s).1 := by
  obtain ⟨h1, h2, h3⟩ := h
  have h4 : ∀ j ∈ s.inflight, s.cur < sentences.length := by
    intro j hj
    cases hp : s.playing with
    | false => rw [h3 hp] at hj; simp at hj
    | true => exact h2 hp
  unfold PInv
  cases e <;>
    simp only [stepF, startReading, readCurrentSentence, pauseReading, cancelSpeech] <;>
    split_ifs <;>
    refine ⟨?_, ?_, ?_⟩ <;>
    simp_all <;> first | omega | exact Nat.succ_le_of_lt (h4 _ (by assumption))

lemma reach_pinv (sentences : List (List Char)) (s : PState)
    (h : Reach false sentences s) : PInv sentences.length s := by
  induction h with
  | init q => exact ⟨Nat.zero_le _, by simp [initPState], by simp [initPState]⟩
  | step s e _ ih => exact pinv_step sentences e s ih

lemma reach_runEvents (stale : Bool) (sentences : List (List Char)) (q : ℚ) (evs : List Ev) :
    Reach stale sentences (runEvents stale sentences q evs) := by
  unfold runEvents
  suffices h : ∀ s : PState, Reach stale sentences s →
      Reach stale sentences (evs.foldl (fun s e => (stepF stale sentences e s).1) s) from
    h _ (Reach.init q)
  induction evs with
  | nil => exact fun s hs => hs
  | cons e rest ih => exact fun s hs => ih _ (Reach.step s e hs)

/-! ## C4: playback index bound -/

/-- A two-sentence document. -/
def twoSentences : List (List Char) :=
  ["One.".data, "Two.".data]

/-- A state reached when the completion event of an utterance cancelled
by a seek is still delivered: start, seek right (cancelling utterance 0),
let the re-issue timer fire (speaking sentence 1), then deliver the stale
completion for utterance 0 and the real completion for utterance 1. -/
def c4BadState : PState :=
  runEvents true twoSentences 1
    [Ev.togglePlay, Ev.arrowRight, Ev.timerFire, Ev.endedEv 0, Ev.endedEv 1]

/-- Claim C4 counterexample: with late events from cancelled utterances
delivered (as real speech engines do on `cancel()`), the completion
handler's unconditional `currentSentence++` pushes the index PAST the
sentence count: a reachable state has `currentIndex = 3` in a
2-sentence document, violating `currentIndex ≤ length`. -/
theorem claim_c4_counterexample :
    Reach true twoSentences c4BadState
    ∧ twoSentences.length = 2
    ∧ c4BadState.cur = 3
    ∧ ¬(c4BadState.cur ≤ twoSentences.length) := by
  refine ⟨reach_runEvents true twoSentences 1 _, by decide, by decide, by decide⟩

/-- Claim C4 (amended): under the clean-cancellation engine model (a
cancelled utterance never delivers events) every reachable state
satisfies `currentIndex ≤ length`, and while playing the index is
strictly below the length; the code has no separate Finished status, so
`currentIndex = length` can hold only in non-playing states. -/
theorem claim_c4_amended (sentences : List (List Char)) (s : PState)
    (h : Reach false sentences s) :
    s.cur ≤ sentences.length
    ∧ (s.playing = true → s.cur < sentences.length) := by
  have hp := reach_pinv sentences s h
  exact ⟨hp.1, hp.2.1⟩

/-- Witness for the amended C4 at a concrete reachable state
(start, complete sentence 0: playing at index 1 of two sentences). -/
theorem claim_c4_amended_witness :
    (runEvents false twoSentences 1 [Ev.togglePlay, Ev.endedEv 0, Ev.timerFire]).cur
        ≤ twoSentences.length
    ∧ ((runEvents false twoSentences 1 [Ev.togglePlay, Ev.endedEv 0, Ev.timerFire]).playing = true →
        (runEvents false twoSentences 1 [Ev.togglePlay, Ev.endedEv 0, Ev.timerFire]).cur
          < twoSentences.length) :=
  claim_c4_amended twoSentences _ (reach_runEvents false twoSentences 1 _)

/-! ## C5: start() behaviour -/

/-- A one-sentence document. -/
def oneSentence : List (List Char) :=
  ["Hi.".data]

/-- The state after playing the single sentence to completion
(the finished configuration, `currentIndex = length`, paused). -/
def c5Finished : PState :=
  runEvents false oneSentence 1 [Ev.togglePlay, Ev.endedEv 0]

/-- The state after pressing play again from the finished configuration. -/
def c5Restarted : PState :=
  runEvents false oneSentence 1 [Ev.togglePlay, Ev.endedEv 0, Ev.togglePlay]

/-- Claim C5 counterexample: `startReading` never resets
`currentSentence`. From the finished configuration (`currentIndex =
length = 1`) pressing play does NOT transition to Playing with index 0:
`readCurrentSentence` sees `currentSentence >= sentences.length` and
immediately pauses again, leaving the index at 1. -/
theorem claim_c5_counterexample :
    Reach false oneSentence c5Restarted
    ∧ c5Finished.cur = oneSentence.length
    ∧ c5Finished.playing = false
    ∧ c5Restarted.playing = false
    ∧ c5Restarted.cur = 1 := by
  refine ⟨reach_runEvents false oneSentence 1 _, by decide, by decide, by decide, by decide⟩

/-- Claim C5 (amended): `start()` with an empty document does nothing but
announce; with `currentIndex < length` it transitions to Playing and
resumes from the EXISTING index (which is never reset), issuing the
utterance for that index; and from the finished configuration
(`currentIndex ≥ length`) it ends non-playing with the index unchanged
and no utterance issued. -/
theorem claim_c5_amended (stale : Bool) (sentences : List (List Char)) (s : PState) :
    (sentences.length = 0 → startReading stale sentences s = (s, []))
    ∧ (s.cur < sentences.length →
        (startReading stale sentences s).1
            = { s with playing := true, inflight := s.inflight ++ [s.cur] }
          ∧ (startReading stale sentences s).2
            = [mkUtterance sentences { s with playing := true }])
    ∧ (sentences.length ≠ 0 → sentences.length ≤ s.cur →
        (startReading stale sentences s).1.playing = false
        ∧ (startReading stale sentences s).1.cur = s.cur
        ∧ (startReading stale sentences s).2 = []) := by
  refine ⟨fun h0 => ?_, fun hlt => ?_, fun h0 hge => ?_⟩
  · simp [startReading, h0]
  · have h0 : ¬sentences.length = 0 := by omega
    simp only [startReading, h0, if_false, readCurrentSentence, pauseReading]
    simp only [if_neg (show ¬((({ s with playing := true } : PState)).playing = false
      ∨ sentences.length ≤ s.cur) by simp; omega)]
    simp
  · simp only [startReading, h0, if_false, readCurrentSentence, pauseReading]
    simp only [if_pos (show ((({ s with playing := true } : PState)).playing = false
      ∨ sentences.length ≤ s.cur) by simp; omega)]
    simp

/-- Witness for the amended C5: resuming at index 1 of two sentences,
pausing again at the finished index, and the empty-document no-op. -/
theorem claim_c5_amended_witness :
    ((startReading false twoSentences { initPState 1 with cur := 1 }).1
        = { initPState 1 with cur := 1, playing := true, inflight := [1] }
      ∧ (startReading false twoSentences { initPState 1 with cur := 1 }).2
        = [mkUtterance twoSentences { initPState 1 with cur := 1, playing := true }])
    ∧ ((startReading false twoSentences { initPState 1 with cur := 2 }).1.playing = false
      ∧ (startReading false twoSentences { initPState 1 with cur := 2 }).1.cur = 2
      ∧ (startReading false twoSentences { initPState 1 with cur := 2 }).2 = [])
    ∧ startReading false [] (initPState 1) = (initPState 1, []) := by
  refine ⟨?_, ?_, ?_⟩
  · have h := (claim_c5_amended false twoSentences { initPState 1 with cur := 1 }).2.1
      (by decide)
    simpa using h
  · exact (claim_c5_amended false twoSentences { initPState 1 with cur := 2 }).2.2
      (by decide) (by decide)
  · exact (claim_c5_amended false [] (initPState 1)).1 rfl

/-! ## C8: stale completion events -/

/-- A six-sentence document. -/
def sixSentences : List (List Char) :=
  ["A.".data, "B.".data, "C.".data, "D.".data, "E.".data, "F.".data]

/-- A Scenario D state: playing at index 4 right after `seek(+1)` from
index 3, with the completion event of the cancelled index-3 utterance
still deliverable. -/
def c8Pre : PState :=
  runEvents true sixSentences 1
    [Ev.togglePlay, Ev.arrowRight, Ev.arrowRight, Ev.arrowRight, Ev.timerFire, Ev.arrowRight]

/-- Claim C8 counterexample: the completion handler contains no index
comparison. In the Scenario D state (Playing, `currentIndex = 4` after
`seek(+1)` from 3) a late completion for the stale index-3 utterance is
NOT discarded: it advances `currentIndex` to 5. -/
theorem claim_c8_counterexample :
    Reach true sixSentences c8Pre
    ∧ c8Pre.playing = true
    ∧ c8Pre.cur = 4
    ∧ 3 ∈ c8Pre.inflight
    ∧ (stepF true sixSentences (Ev.endedEv 3) c8Pre).1.cur = 5
    ∧ (stepF true sixSentences (Ev.endedEv 3) c8Pre).1.cur ≠ c8Pre.cur := by
  refine ⟨reach_runEvents true sixSentences 1 _, by decide, by decide, by decide,
    by decide, by decide⟩

/-- Claim C8 (amended): late speech-engine completion events are NOT
filtered by index: a completion event for ANY still-deliverable
utterance index increments `currentSentence`, exactly as a completion
for the current sentence would. -/
theorem claim_c8_amended (stale : Bool) (sentences : List (List Char)) (s : PState)
    (i : Nat) (hi : i ∈ s.inflight) :
    (stepF stale sentences (Ev.endedEv i) s).1.cur = s.cur + 1 := by
  simp only [stepF, hi, if_true]
  split_ifs <;> simp [pauseReading]

/-- Witness for the amended C8 at a concrete paused state holding one
deliverable event. -/
theorem claim_c8_amended_witness :
    (stepF true sixSentences (Ev.endedEv 7)
        { cur := 0, playing := false, speed := 1, inflight := [7], timer := 0 }).1.cur = 0 + 1 :=
  claim_c8_amended true sixSentences
    { cur := 0, playing := false, speed := 1, inflight := [7], timer := 0 } 7 (by decide)

/-! ## C10: utterance configuration -/

/-- Claim C10: every utterance any handler issues carries pitch 1.1 and
volume 1, and its rate is the speed value of the state at the moment the
utterance is created; a speed change while paused issues no utterance
and only stores the new speed, which the next `start()` then uses as the
rate of the utterance it issues. -/
theorem claim_c10_utterance_config :
    (∀ (stale : Bool) (sentences : List (List Char)) (e : Ev) (s : PState) (u : Utt),
      u ∈ (stepF stale sentences e s).2 →
        u.pitch = (11 : ℚ) / 10 ∧ u.volume = 1 ∧ u.rate = s.speed)
    ∧ (∀ (stale : Bool) (sentences : List (List Char)) (s : PState) (v : ℚ),
        s.playing = false →
          stepF stale sentences (Ev.speedChange v) s = ({ s with speed := v }, [])
          ∧ (s.cur < sentences.length →
              (stepF stale sentences Ev.togglePlay { s with speed := v }).2
                  = [mkUtterance sentences { s with speed := v, playing := true }]
                ∧ (mkUtterance sentences { s with speed := v, playing := true }).rate = v)) := by
  constructor
  · intro stale sentences e s u hu
    have hread : ∀ s2 : PState, s2.speed = s.speed →
        u ∈ (readCurrentSentence stale sentences s2).2 →
        u.pitch = (11 : ℚ) / 10 ∧ u.volume = 1 ∧ u.rate = s.speed := by
      intro s2 hs2 hm
      unfold readCurrentSentence at hm
      split_ifs at hm
      · simp at hm
      · simp at hm
        subst hm
        exact ⟨rfl, rfl, hs2⟩
    cases e with
    | togglePlay =>
      simp only [stepF] at hu
      split_ifs at hu
      · simp at hu
      · unfold startReading at hu
        split_ifs at hu
        · simp at hu
        · exact hread { s with playing := true } rfl hu
    | endedEv i =>
      simp only [stepF] at hu
      split_ifs at hu <;> simp at hu
    | errorEv i =>
      simp only [stepF] at hu
      split_ifs at hu <;> simp at hu
    | timerFire =>
      simp only [stepF] at hu
      split_ifs at hu
      · simp at hu
      · exact hread { s with timer := s.timer - 1 } rfl hu
    | arrowRight =>
      simp only [stepF] at hu
      split_ifs at hu <;> simp at hu
    | arrowLeft =>
      simp only [stepF] at hu
      split_ifs at hu <;> simp at hu
    | speedChange v =>
      simp only [stepF] at hu
      split_ifs at hu <;> simp at hu
    | resetDoc =>
      simp [stepF] at hu
  · intro stale sentences s v hp
    constructor
    · simp only [stepF, hp]
      simp
    · intro hlt
      have h0 : ¬sentences.length = 0 := by omega
      have hco : ¬(({ s with speed := v, playing := true } : PState).playing = false
          ∨ sentences.length ≤ ({ s with speed := v, playing := true } : PState).cur) := by
        simp
        omega
      constructor
      · simp [stepF, startReading, hp, h0, readCurrentSentence, hco]
        rw [if_neg (show ¬sentences.length ≤ s.cur by omega)]
      · rfl

/-- Witness for C10: the utterance issued by pressing play on a fresh
one-sentence document carries pitch 1.1, volume 1 and the preset rate,
and a paused speed change followed by play uses the new rate. -/
theorem claim_c10_utterance_config_witness :
    ((mkUtterance oneSentence { initPState 2 with playing := true }).pitch = (11 : ℚ) / 10
      ∧ (mkUtterance oneSentence { initPState 2 with playing := true }).volume = 1
      ∧ (mkUtterance oneSentence { initPState 2 with playing := true }).rate = (initPState 2).speed)
    ∧ (stepF false oneSentence (Ev.speedChange 3) (initPState 2)
        = ({ initPState 2 with speed := 3 }, [])
      ∧ ((stepF false oneSentence Ev.togglePlay { initPState 2 with speed := 3 }).2
          = [mkUtterance oneSentence { initPState 2 with speed := 3, playing := true }]
        ∧ (mkUtterance oneSentence { initPState 2 with speed := 3, playing := true }).rate = 3)) := by
  constructor
  · exact claim_c10_utterance_config.1 false oneSentence Ev.togglePlay (initPState 2)
      (mkUtterance oneSentence { initPState 2 with playing := true })
      (List.mem_singleton_self _)
  · have h := claim_c10_utterance_config.2 false oneSentence (initPState 2) 3 rfl
    exact ⟨h.1, h.2 (by decide)⟩

end SDR
